import Mathlib

/-!
Verification development for the IoT telemetry backend (MQTT ingestion
pipeline, device registry, telemetry store, liveness status evaluator).

The JavaScript source is embedded shallowly:
- JavaScript numbers (IEEE-754 doubles) are modelled as exact rationals,
  with NaN and the infinities tracked as separate constructors;
- JSON-reachable JavaScript values are the inductive `JSVal`;
- code that can throw is modelled with `Except`; the `try`/`catch` in
  `decodeLittleEndianData` becomes an explicit match on the three
  per-field decode results;
- the Mongo-backed device collection becomes a list of records, and
  `findOne` + `save` becomes a first-match in-place update / append;
- wall-clock instants are naturals (milliseconds).
-/

namespace UtopiaTask

/-- JavaScript number values: exact rationals stand in for IEEE-754 doubles,
with NaN and the two infinities tracked separately. -/
inductive JSNum where
  | num (q : ℚ)
  | nan
  | posInf
  | negInf
deriving DecidableEq

/-- Rounding to two decimals as done by `parseFloat(x.toFixed(2))`:
ECMAScript `toFixed` picks the integer n minimising |n / 100 - x| and takes
the larger n on ties, i.e. round half toward positive infinity. -/
def round2Q (q : ℚ) : ℚ := (⌊q * 100 + 1 / 2⌋ : ℚ) / 100

/-- Two-decimal rounding lifted to JS numbers; `toFixed` followed by
`parseFloat` sends NaN back to NaN and the infinities back to themselves. -/
def round2N : JSNum → JSNum
  | .num q => .num (round2Q q)
  | n => n

/-- JavaScript numeric truthiness: 0 and NaN are falsy, everything else truthy. -/
def numTruthy : JSNum → Bool
  | .num q => if q = 0 then false else true
  | .nan => false
  | .posInf => true
  | .negInf => true

def isWsChar (c : Char) : Bool := c.isWhitespace

/-- Character class of the regex `[0-9a-fA-F]`. -/
def isHexDigitC (c : Char) : Bool :=
  c.isDigit || ('a' ≤ c && c ≤ 'f') || ('A' ≤ c && c ≤ 'F')

def hexDigitVal (c : Char) : Nat :=
  if c.isDigit then c.toNat - '0'.toNat
  else if 'a' ≤ c && c ≤ 'f' then 10 + c.toNat - 'a'.toNat
  else if 'A' ≤ c && c ≤ 'F' then 10 + c.toNat - 'A'.toNat
  else 0

def hexVal (ds : List Char) : Nat := ds.foldl (fun a c => 16 * a + hexDigitVal c) 0

def digitsVal (ds : List Char) : Nat := ds.foldl (fun a c => 10 * a + (c.toNat - '0'.toNat)) 0

/-- Optional leading sign of a JS numeric literal; returns (negative?, rest). -/
def signOf : List Char → Bool × List Char
  | '+' :: r => (false, r)
  | '-' :: r => (true, r)
  | cs => (false, cs)

def takeDigits (cs : List Char) : List Char × List Char :=
  (cs.takeWhile Char.isDigit, cs.dropWhile Char.isDigit)

/-- Exponent part of a JS numeric literal: `e`/`E`, optional sign, digits; it
is consumed only when at least one digit follows, otherwise nothing is. -/
def parseExp (cs : List Char) : Int × List Char :=
  match cs with
  | c :: rest =>
    if c = 'e' || c = 'E' then
      let p := signOf rest
      let d := takeDigits p.2
      if d.1.isEmpty then (0, cs)
      else ((if p.1 then -(digitsVal d.1 : Int) else (digitsVal d.1 : Int)), d.2)
    else (0, cs)
  | [] => (0, [])

/-- Unsigned decimal mantissa, longest prefix: either digits with an optional
dot and further digits, or a dot followed by digits. -/
def parseDecMantissa (cs : List Char) : Option (ℚ × List Char) :=
  let i := takeDigits cs
  if i.1.isEmpty then
    match i.2 with
    | '.' :: r2 =>
      let f := takeDigits r2
      if f.1.isEmpty then none
      else some ((digitsVal f.1 : ℚ) / 10 ^ f.1.length, f.2)
    | _ => none
  else
    match i.2 with
    | '.' :: r2 =>
      let f := takeDigits r2
      some ((digitsVal i.1 : ℚ) + (digitsVal f.1 : ℚ) / 10 ^ f.1.length, f.2)
    | _ => some ((digitsVal i.1 : ℚ), i.2)

/-- JavaScript `parseFloat`: skip leading whitespace, optional sign, then the
longest `Infinity` or decimal-literal prefix; NaN when no prefix parses. -/
def jsParseFloat (s : String) : JSNum :=
  let cs := s.data.dropWhile isWsChar
  let sg := signOf cs
  if sg.2.take 8 = "Infinity".data then (if sg.1 then .negInf else .posInf)
  else
    match parseDecMantissa sg.2 with
    | none => .nan
    | some (m, r2) =>
      let e := (parseExp r2).1
      let q := m * (10 : ℚ) ^ e
      .num (if sg.1 then -q else q)

def trimWs (cs : List Char) : List Char :=
  ((cs.dropWhile isWsChar).reverse.dropWhile isWsChar).reverse

/-- JavaScript `ToNumber` on a string: after trimming, the empty string is 0,
a full-string `0x` hex literal, `Infinity`, or a full-string decimal literal
parse; anything else is NaN. -/
def jsStringToNumber (s : String) : JSNum :=
  match trimWs s.data with
  | [] => .num 0
  | '0' :: 'x' :: rest =>
    if !rest.isEmpty && rest.all isHexDigitC then .num (hexVal rest) else .nan
  | '0' :: 'X' :: rest =>
    if !rest.isEmpty && rest.all isHexDigitC then .num (hexVal rest) else .nan
  | cs =>
    let sg := signOf cs
    if sg.2 = "Infinity".data then (if sg.1 then .negInf else .posInf)
    else
      match parseDecMantissa sg.2 with
      | none => .nan
      | some (m, r2) =>
        let p := parseExp r2
        if p.2.isEmpty then .num ((if sg.1 then -m else m) * (10 : ℚ) ^ p.1)
        else .nan

/-- JavaScript values reachable in the pipeline: everything `JSON.parse` can
produce, plus `undefined` (the result of a missing property read) and Node
`Buffer`s (raw byte sequences). -/
inductive JSVal where
  | vnum (n : JSNum)
  | vstr (s : String)
  | vbool (b : Bool)
  | vnull
  | vundefined
  | varr (xs : List JSVal)
  | vobj (fields : List (String × JSVal))
  | vbuf (bytes : List Nat)

/-- Digits of the fractional part n/d (with n < d), at most `fuel` of them.
Exact whenever the decimal expansion terminates within `fuel` digits, which
covers every value reachable from the decoders. -/
def fracDigits : Nat → Nat → Nat → List Char
  | 0, _, _ => []
  | _, 0, _ => []
  | fuel + 1, n, d =>
    let n10 := n * 10
    Char.ofNat ('0'.toNat + n10 / d) :: fracDigits fuel (n10 % d) d

/-- Decimal rendering of a JS number, as by `String(x)`. -/
def jsNumToString : JSNum → String
  | .nan => "NaN"
  | .posInf => "Infinity"
  | .negInf => "-Infinity"
  | .num q =>
    let sign := if q < 0 then "-" else ""
    let a : ℚ := |q|
    let ipart : Nat := (⌊a⌋).toNat
    let fnum : ℚ := a - (⌊a⌋ : ℚ)
    if fnum.num.toNat = 0 then sign ++ toString ipart
    else sign ++ toString ipart ++ "." ++ String.mk (fracDigits 80 fnum.num.toNat fnum.den)

/-- Array-join rendering of a JS value (element position of a comma join):
null and undefined render empty, nested arrays flatten through their own
join, plain objects render as the object tag. Buffers are rendered as
Latin-1-ish text (multi-byte UTF-8 is not modelled; buffers never occur
inside JSON-derived data). -/
def jsValDisplayString : JSVal → String
  | .vnum n => jsNumToString n
  | .vstr s => s
  | .vbool b => if b then "true" else "false"
  | .vnull => ""
  | .vundefined => ""
  | .vobj _ => "[object Object]"
  | .vbuf bs => String.mk (bs.map fun b => if b < 128 then Char.ofNat b else '?')
  | .varr xs => String.intercalate "," (xs.attach.map fun x => jsValDisplayString x.1)
decreasing_by
  simp_wf
  have := List.sizeOf_lt_of_mem x.2
  omega

/-- JavaScript `ToString` on a value (null and undefined spelled out, the
rest as in the array-join rendering). -/
def jsToStringStd : JSVal → String
  | .vnull => "null"
  | .vundefined => "undefined"
  | v => jsValDisplayString v

/-- JavaScript `ToNumber` for the values reachable here; objects convert via
their string form, so plain objects give NaN. -/
def jsToNumber : JSVal → JSNum
  | .vnum n => n
  | .vbool b => .num (if b then 1 else 0)
  | .vnull => .num 0
  | .vundefined => .nan
  | .vstr s => jsStringToNumber s
  | v => jsStringToNumber (jsToStringStd v)

/-- Truncation toward zero, as JS ToInteger-style conversions do. -/
def ratTrunc (q : ℚ) : Int := if 0 ≤ q then ⌊q⌋ else -⌊-q⌋

/-- JavaScript `ToUint8`, the per-element coercion of `Buffer.from(array)`:
ToNumber, with NaN and the infinities mapped to 0, truncated toward zero and
wrapped modulo 256. -/
def jsToUint8 (v : JSVal) : Nat :=
  match jsToNumber v with
  | .num q => (ratTrunc q % 256).toNat
  | _ => 0

/-- JavaScript truthiness. -/
def truthy : JSVal → Bool
  | .vnum n => numTruthy n
  | .vstr s => if s = "" then false else true
  | .vbool b => b
  | .vnull => false
  | .vundefined => false
  | .varr _ => true
  | .vobj _ => true
  | .vbuf _ => true

/-- Whether `typeof v` is the string "object" (true for null, arrays,
buffers and plain objects). -/
def typeofIsObject : JSVal → Bool
  | .vnull => true
  | .varr _ => true
  | .vobj _ => true
  | .vbuf _ => true
  | _ => false

def isUndefined : JSVal → Bool
  | .vundefined => true
  | _ => false

/-- Property read `v[k]` for the shapes reachable here: object lookup with a
later duplicate key winning (JSON.parse keeps the last one); any other
receiver gives `undefined`. -/
def getField : JSVal → String → JSVal
  | .vobj fs, k => fs.foldl (fun acc kv => if kv.1 = k then kv.2 else acc) .vundefined
  | _, _ => .vundefined

/-- Little-endian 32-bit composition of a 4-byte sequence (each entry already
reduced modulo 256, as bytes of a Node Buffer are). -/
def bytesLE : List Nat → Nat
  | [b0, b1, b2, b3] => b0 % 256 + 256 * (b1 % 256 + 256 * (b2 % 256 + 256 * (b3 % 256)))
  | _ => 0

/-- Reinterpretation of a 32-bit pattern as an IEEE-754 binary32 value, as
performed by `buffer.writeUInt32LE` followed by `buffer.readFloatLE`. -/
def float32OfBits (bits : Nat) : JSNum :=
  let sign : ℕ := bits / 2 ^ 31 % 2
  let e : ℕ := bits / 2 ^ 23 % 2 ^ 8
  let m : ℕ := bits % 2 ^ 23
  if e = 255 then
    if m ≠ 0 then .nan else if sign = 1 then .negInf else .posInf
  else
    let mag : ℚ := if e = 0 then (m : ℚ) / 2 ^ 149 else ((2 ^ 23 + m : ℕ) : ℚ) * 2 ^ e / 2 ^ 150
    .num (if sign = 1 then -mag else mag)

/-- The test `value.startsWith('0x')`. -/
def strStartsWith0x (s : String) : Bool :=
  match s.data with
  | '0' :: 'x' :: _ => true
  | _ => false

/-- The regex test of `littleEndianToFloat`: one or more hex-digit characters
and nothing else. -/
def hexTest (s : String) : Bool := !s.data.isEmpty && s.data.all isHexDigitC

/-- Behaviour of `parseInt(hexValue, 16)` at its call site, where `hexValue`
always begins with the two characters `0x`: drop them and take the longest
hex-digit prefix; `none` stands for NaN. -/
def parseIntHex (s : String) : Option Nat :=
  let ds := (s.data.drop 2).takeWhile isHexDigitC
  if ds.isEmpty then none else some (hexVal ds)

/-- The numeric decoder `MQTTWorker.littleEndianToFloat`. A thrown exception
(`buffer.writeUInt32LE` rejects NaN and values above 2^32 - 1) is modelled as
`Except.error ()`; it is caught one level up, in `decodeLittleEndianData`. -/
def littleEndianToFloat : JSVal → Except Unit JSNum
  | .vnum n => .ok n
  | .vstr s =>
    if strStartsWith0x s || hexTest s then
      let hexValue : String := if strStartsWith0x s then s else ⟨'0' :: 'x' :: s.data⟩
      match parseIntHex hexValue with
      | some n => if n ≤ 4294967295 then .ok (float32OfBits n) else .error ()
      | none => .error ()
    else
      match jsParseFloat s with
      | .nan => .ok (.num 0)
      | n => .ok n
  | .vbuf bs => if bs.length = 4 then .ok (float32OfBits (bytesLE bs)) else .ok (.num 0)
  | .varr xs =>
    if xs.length = 4 then .ok (float32OfBits (bytesLE (xs.map jsToUint8))) else .ok (.num 0)
  | _ => .ok (.num 0)

/-- The expression `parseFloat(x) || 0` of the decoder's catch branch. -/
def parseFloatOr0 (v : JSVal) : JSNum :=
  let n :=
    match v with
    | .vnum n => n
    | .vstr s => jsParseFloat s
    | v => jsParseFloat (jsToStringStd v)
  if numTruthy n then n else .num 0

/-- Normalized per-message sensor data, the `data` sub-document of a
telemetry record. -/
structure DecodedData where
  temperature : JSNum
  humidity : JSNum
  pm25 : JSNum
deriving DecidableEq

/-- `MQTTWorker.decodeLittleEndianData`: decode the three fields and round
each to two decimals; if any of the three per-field decodes throws, the
catch branch instead stores `parseFloat(raw) || 0` for every field, without
rounding. -/
def decodeLittleEndianData (temp hum pm : JSVal) : DecodedData :=
  match littleEndianToFloat temp, littleEndianToFloat hum, littleEndianToFloat pm with
  | .ok qt, .ok qh, .ok qp => ⟨round2N qt, round2N qh, round2N qp⟩
  | _, _, _ => ⟨parseFloatOr0 temp, parseFloatOr0 hum, parseFloatOr0 pm⟩

/-- `MQTTWorker.validatePayload`. -/
def validatePayload (payload : JSVal) : Bool :=
  truthy payload && typeofIsObject payload &&
  truthy (getField payload "data") && typeofIsObject (getField payload "data") &&
  !isUndefined (getField (getField payload "data") "temp") &&
  !isUndefined (getField (getField payload "data") "hum") &&
  !isUndefined (getField (getField payload "data") "pm2.5")

/-- One stored telemetry reading (the model drops Mongo-assigned `_id` and
the forensic `rawPayload` copy, which no claim mentions). -/
structure TelemetryRec where
  deviceId : String
  uid : JSVal
  firmware : JSVal
  tts : JSVal
  data : DecodedData
  timestamp : Nat
  receivedAt : Nat

/-- The `telemetryData` object built by `MQTTWorker.handleMessage` for an
accepted message, with `now` the ingestion instant in milliseconds. -/
def mkTelemetry (deviceId : String) (payload : JSVal) (now : Nat) : TelemetryRec :=
  { deviceId := deviceId
    uid := if truthy (getField payload "uid") then getField payload "uid" else .vstr deviceId
    firmware := if truthy (getField payload "fw") then getField payload "fw" else .vstr "unknown"
    tts := if truthy (getField payload "tts") then getField payload "tts" else .vnum (.num 0)
    data := decodeLittleEndianData (getField (getField payload "data") "temp")
      (getField (getField payload "data") "hum")
      (getField (getField payload "data") "pm2.5")
    timestamp := now
    receivedAt := now }

/-- `telemetrySchema.methods.toAPIResponse`: the read path re-rounds the
three data fields to two decimals. -/
def toAPIResponse (r : TelemetryRec) : TelemetryRec :=
  { r with data := ⟨round2N r.data.temperature, round2N r.data.humidity, round2N r.data.pm25⟩ }

/-- One record of the device collection (`deviceSchema`). -/
structure DeviceRec where
  uid : String
  name : String
  firmware : JSVal
  lastSeen : Nat
  isActive : Bool
  location : String
  deviceType : String

/-- The new-device branch of `MQTTWorker.updateDevice` (schema defaults fill
`location` and `deviceType`). -/
def newDevice (deviceId : String) (payload : JSVal) (now : Nat) : DeviceRec :=
  { uid := deviceId
    name := "Device " ++ deviceId
    firmware := if truthy (getField payload "fw") then getField payload "fw" else .vstr "unknown"
    lastSeen := now
    isActive := true
    location := "Unknown"
    deviceType := "sensor" }

/-- The existing-device branch of `MQTTWorker.updateDevice`. -/
def updateExisting (d : DeviceRec) (payload : JSVal) (now : Nat) : DeviceRec :=
  { d with
    firmware := if truthy (getField payload "fw") then getField payload "fw" else d.firmware
    lastSeen := now
    isActive := true }

/-- `MQTTWorker.updateDevice` over the device collection: `findOne` returns
the first record whose `uid` matches and `save` updates it in place;
otherwise a fresh record is inserted. -/
def upsertDevice : List DeviceRec → String → JSVal → Nat → List DeviceRec
  | [], deviceId, payload, now => [newDevice deviceId payload now]
  | d :: rest, deviceId, payload, now =>
    if d.uid = deviceId then updateExisting d payload now :: rest
    else d :: upsertDevice rest deviceId payload now

/-- Segments of a character list split at every `'/'`; the JS
`String.prototype.split` keeps empty segments, and the empty string yields
one empty segment. -/
def splitSlashAux : List Char → List (List Char)
  | [] => [[]]
  | c :: rest =>
    if c = '/' then [] :: splitSlashAux rest
    else
      match splitSlashAux rest with
      | seg :: segs => (c :: seg) :: segs
      | [] => [[c]]

/-- JavaScript `topic.split('/')`. -/
def jsSplitSlash (s : String) : List String := (splitSlashAux s.data).map String.mk

/-- Persistent state touched by the ingestion pipeline: the device registry
and the append-only telemetry store. -/
structure SysState where
  devices : List DeviceRec
  telemetry : List TelemetryRec

/-- `MQTTWorker.handleMessage` as a state transformer. The message argument
is the result of `JSON.parse` on the raw bytes, `none` standing for a parse
failure. The topic must split on `/` into exactly 4 segments whose second
and third are `application` and `out`; then the payload is validated,
decoded, appended to the telemetry store, and the device registry is
upserted under the topic-derived device id. -/
def processMessage (st : SysState) (topic : String) (msg : Option JSVal) (now : Nat) :
    SysState :=
  let topicParts := jsSplitSlash topic
  if topicParts.length = 4 ∧ topicParts[1]! = "application" ∧ topicParts[2]! = "out" then
    let deviceId := topicParts[3]!
    match msg with
    | none => st
    | some payload =>
      if validatePayload payload then
        { devices := upsertDevice st.devices deviceId payload now
          telemetry := st.telemetry ++ [mkTelemetry deviceId payload now] }
      else st
  else st

/-- A run of the message handler over a sequence of (topic, parsed body,
receipt instant) triples. -/
def runMessages (st : SysState) (msgs : List (String × Option JSVal × Nat)) : SysState :=
  msgs.foldl (fun s m => processMessage s m.1 m.2.1 m.2.2) st

/-- Liveness tri-state of a device. -/
inductive DStatus where
  | online
  | warning
  | offline
deriving DecidableEq

/-- The `getDeviceStatus` helper of the devices route (identical in the
devices page): `offline` without a latest reading, otherwise bucket the age
in minutes of `device.lastSeen || latestReading.timestamp`. Instants are
milliseconds (integers, as a JS date difference). -/
def getDeviceStatus (latestReadingTs : Option Int) (lastSeen : Option Int) (now : Int) :
    DStatus :=
  match latestReadingTs with
  | none => .offline
  | some ts =>
    let seen : Int := lastSeen.getD ts
    let minutesAgo : ℚ := ((now - seen : Int) : ℚ) / (1000 * 60)
    if minutesAgo < 5 then .online
    else if minutesAgo < 30 then .warning
    else .offline

/-- Events delivered to the MQTT worker: the five client callbacks it
installs, plus its own `stop` operation. -/
inductive MEvent where
  | connect
  | error
  | close
  | reconnect
  | offline
  | stop
deriving DecidableEq

/-- Mutable state of `MQTTWorker` relevant to the connection lifecycle.
`ended` records that `client.end()` has been called (by the give-up branch
of the reconnect handler, or by `stop`). -/
structure WState where
  isConnected : Bool
  reconnectAttempts : Nat
  ended : Bool
deriving DecidableEq

/-- Constructor state of `MQTTWorker`. -/
def initW : WState := { isConnected := false, reconnectAttempts := 0, ended := false }

/-- `this.maxReconnectAttempts`. -/
def maxReconnectAttempts : Nat := 10

/-- The event handlers installed by `MQTTWorker.connect`, as a step
function. The `connect` handler marks the worker connected and resets the
attempt counter; `error`, `close` and `offline` mark it disconnected; the
`reconnect` handler increments the counter and calls `client.end()` once the
counter reaches the ceiling; `stop` calls `client.end()` and marks the
worker disconnected. -/
def stepW (s : WState) : MEvent → WState
  | .connect => { isConnected := true, reconnectAttempts := 0, ended := s.ended }
  | .error => { s with isConnected := false }
  | .close => { s with isConnected := false }
  | .offline => { s with isConnected := false }
  | .reconnect =>
    let n := s.reconnectAttempts + 1
    if n ≥ maxReconnectAttempts then { s with reconnectAttempts := n, ended := true }
    else { s with reconnectAttempts := n }
  | .stop => { s with isConnected := false, ended := true }

/-- Result of `MQTTWorker.getStatus`. -/
structure WStatus where
  connected : Bool
  reconnectAttempts : Nat
deriving DecidableEq

def getStatus (s : WState) : WStatus :=
  { connected := s.isConnected, reconnectAttempts := s.reconnectAttempts }

/-- Environment assumptions on the event sequences the mqtt.js client can
deliver, starting from state `s`: a `reconnect` fires only while the
transport is down (the client reconnects after a close), and once
`client.end()` has been called the client emits no further `connect` or
`reconnect` events (end() tears the session down and cancels the
reconnect timer). `stop` and the passive disconnect notifications are
unrestricted. -/
def validFrom (s : WState) : List MEvent → Bool
  | [] => true
  | e :: rest =>
    (match e with
      | .connect => !s.ended
      | .reconnect => !s.ended && !s.isConnected
      | _ => true) && validFrom (stepW s e) rest

/-- Folding the worker's event handlers over an event sequence. -/
def runW (s : WState) (evs : List MEvent) : WState := evs.foldl stepW s

/-! Helper lemmas shared by the claim theorems. -/

/-- Whether a value is a JavaScript object (array, buffer or plain object;
null is not). -/
def isObjectJS : JSVal → Bool
  | .varr _ => true
  | .vobj _ => true
  | .vbuf _ => true
  | _ => false

lemma truthyObject_eq (v : JSVal) : (truthy v && typeofIsObject v) = isObjectJS v := by
  cases v <;> simp [truthy, typeofIsObject, isObjectJS]

/-- Shape characterisation of the payload validator: truthiness plus the
typeof test amount to being an object, and the three field checks amount to
the fields not being undefined. -/
lemma validatePayload_iff (p : JSVal) :
    validatePayload p = true ↔
      isObjectJS p = true ∧ isObjectJS (getField p "data") = true ∧
      isUndefined (getField (getField p "data") "temp") = false ∧
      isUndefined (getField (getField p "data") "hum") = false ∧
      isUndefined (getField (getField p "data") "pm2.5") = false := by
  have h1 : (truthy p = true ∧ typeofIsObject p = true) ↔ isObjectJS p = true := by
    rw [← truthyObject_eq p, Bool.and_eq_true]
  have h2 : (truthy (getField p "data") = true ∧ typeofIsObject (getField p "data") = true)
      ↔ isObjectJS (getField p "data") = true := by
    rw [← truthyObject_eq (getField p "data"), Bool.and_eq_true]
  simp only [validatePayload, Bool.and_eq_true, Bool.not_eq_true']
  tauto

/-- Messages on a topic that does not split into 4 segments with the fixed
middle segments leave the state unchanged. -/
lemma processMessage_badTopic (st : SysState) (topic : String) (msg : Option JSVal)
    (now : Nat)
    (h : ¬((jsSplitSlash topic).length = 4 ∧ (jsSplitSlash topic)[1]! = "application"
        ∧ (jsSplitSlash topic)[2]! = "out")) :
    processMessage st topic msg now = st := by
  simp only [processMessage]
  rw [if_neg h]

/-- An unparsable body leaves the state unchanged. -/
lemma processMessage_noParse (st : SysState) (topic : String) (now : Nat) :
    processMessage st topic none now = st := by
  simp only [processMessage]
  split <;> rfl

/-- A body failing validation leaves the state unchanged. -/
lemma processMessage_invalid (st : SysState) (topic : String) (p : JSVal) (now : Nat)
    (hv : validatePayload p = false) :
    processMessage st topic (some p) now = st := by
  simp only [processMessage, hv]
  split <;> rfl

/-- Reduction of the handler on an accepted message. -/
lemma processMessage_accepted (st : SysState) (topic a d : String) (p : JSVal) (now : Nat)
    (hs : jsSplitSlash topic = [a, "application", "out", d])
    (hv : validatePayload p = true) :
    processMessage st topic (some p) now =
      { devices := upsertDevice st.devices d p now
        telemetry := st.telemetry ++ [mkTelemetry d p now] } := by
  simp only [processMessage, hs]
  rw [if_pos ⟨rfl, rfl, rfl⟩, if_pos hv]
  rfl

/-! Claim theorems. -/

/-- C3: for every lastSeen instant and current instant now, the status
function returns online when the age now - lastSeen is strictly below 5
minutes, warning when the age is at least 5 and strictly below 30 minutes,
and offline when the age is at least 30 minutes (boundary ages fall in the
worse bucket); a device with no reading at all is offline. Instants are in
milliseconds, so the thresholds are 300000 and 1800000. -/
theorem claim_C3 (l : Option Int) (ts now : Int) :
    getDeviceStatus none l now = DStatus.offline
    ∧ (now - l.getD ts < 300000 → getDeviceStatus (some ts) l now = DStatus.online)
    ∧ (300000 ≤ now - l.getD ts → now - l.getD ts < 1800000 →
        getDeviceStatus (some ts) l now = DStatus.warning)
    ∧ (1800000 ≤ now - l.getD ts → getDeviceStatus (some ts) l now = DStatus.offline) := by
  have h60 : (0 : ℚ) < 1000 * 60 := by norm_num
  refine ⟨rfl, ?_, ?_, ?_⟩
  · intro h
    have hq : ((now - l.getD ts : Int) : ℚ) < 300000 := by exact_mod_cast h
    have hc : ((now - l.getD ts : Int) : ℚ) / (1000 * 60) < 5 := by
      rw [div_lt_iff₀ h60]; linarith
    show (if ((now - l.getD ts : Int) : ℚ) / (1000 * 60) < 5 then DStatus.online
      else if ((now - l.getD ts : Int) : ℚ) / (1000 * 60) < 30 then DStatus.warning
      else DStatus.offline) = DStatus.online
    rw [if_pos hc]
  · intro h1 h2
    have hq1 : (300000 : ℚ) ≤ ((now - l.getD ts : Int) : ℚ) := by exact_mod_cast h1
    have hq2 : ((now - l.getD ts : Int) : ℚ) < 1800000 := by exact_mod_cast h2
    have hc1 : ¬(((now - l.getD ts : Int) : ℚ) / (1000 * 60) < 5) := by
      rw [not_lt, le_div_iff₀ h60]; linarith
    have hc2 : ((now - l.getD ts : Int) : ℚ) / (1000 * 60) < 30 := by
      rw [div_lt_iff₀ h60]; linarith
    show (if ((now - l.getD ts : Int) : ℚ) / (1000 * 60) < 5 then DStatus.online
      else if ((now - l.getD ts : Int) : ℚ) / (1000 * 60) < 30 then DStatus.warning
      else DStatus.offline) = DStatus.warning
    rw [if_neg hc1, if_pos hc2]
  · intro h1
    have hq1 : (1800000 : ℚ) ≤ ((now - l.getD ts : Int) : ℚ) := by exact_mod_cast h1
    have hc1 : ¬(((now - l.getD ts : Int) : ℚ) / (1000 * 60) < 5) := by
      rw [not_lt, le_div_iff₀ h60]; linarith
    have hc2 : ¬(((now - l.getD ts : Int) : ℚ) / (1000 * 60) < 30) := by
      rw [not_lt, le_div_iff₀ h60]; linarith
    show (if ((now - l.getD ts : Int) : ℚ) / (1000 * 60) < 5 then DStatus.online
      else if ((now - l.getD ts : Int) : ℚ) / (1000 * 60) < 30 then DStatus.warning
      else DStatus.offline) = DStatus.offline
    rw [if_neg hc1, if_neg hc2]

/-- Witness for C3, at the spec's boundary examples (ages 4m59.999s, 5m,
29m59.999s, 30m, and no reading). -/
theorem claim_C3_witness :
    getDeviceStatus none (some 0) 0 = DStatus.offline
    ∧ getDeviceStatus (some 0) (some 0) 299999 = DStatus.online
    ∧ getDeviceStatus (some 0) (some 0) 300000 = DStatus.warning
    ∧ getDeviceStatus (some 0) (some 0) 1799999 = DStatus.warning
    ∧ getDeviceStatus (some 0) (some 0) 1800000 = DStatus.offline :=
  ⟨(claim_C3 (some 0) 0 0).1,
   (claim_C3 (some 0) 0 299999).2.1 (by decide),
   (claim_C3 (some 0) 0 300000).2.2.1 (by decide) (by decide),
   (claim_C3 (some 0) 0 1799999).2.2.1 (by decide) (by decide),
   (claim_C3 (some 0) 0 1800000).2.2.2 (by decide)⟩

/-- C6: a message whose topic does not split into exactly 4 slash-separated
segments with second segment "application" and third segment "out" leaves
both the telemetry store and the device registry unchanged. -/
theorem claim_C6 (st : SysState) (topic : String) (msg : Option JSVal) (now : Nat)
    (h : ¬((jsSplitSlash topic).length = 4 ∧ (jsSplitSlash topic)[1]! = "application"
        ∧ (jsSplitSlash topic)[2]! = "out")) :
    processMessage st topic msg now = st :=
  processMessage_badTopic st topic msg now h

/-- Witness for C6 on a two-segment topic. -/
theorem claim_C6_witness :
    ¬((jsSplitSlash "foo/bar").length = 4 ∧ (jsSplitSlash "foo/bar")[1]! = "application"
        ∧ (jsSplitSlash "foo/bar")[2]! = "out")
    ∧ processMessage ⟨[], []⟩ "foo/bar" none 0 = ⟨[], []⟩ :=
  ⟨by decide, claim_C6 ⟨[], []⟩ "foo/bar" none 0 (by decide)⟩

/-- C7: a message whose body is not parseable JSON, or whose parsed body is
not an object carrying a nested data object with the three fields temp, hum
and pm2.5 present, stores no reading and performs no state mutation. -/
theorem claim_C7 (st : SysState) (topic : String) (now : Nat) :
    processMessage st topic none now = st
    ∧ ∀ p : JSVal,
      ¬(isObjectJS p = true ∧ isObjectJS (getField p "data") = true ∧
        isUndefined (getField (getField p "data") "temp") = false ∧
        isUndefined (getField (getField p "data") "hum") = false ∧
        isUndefined (getField (getField p "data") "pm2.5") = false) →
      processMessage st topic (some p) now = st := by
  refine ⟨processMessage_noParse st topic now, fun p h => ?_⟩
  have hv : validatePayload p = false := by
    rw [← Bool.not_eq_true, validatePayload_iff]
    exact h
  exact processMessage_invalid st topic p now hv

/-- Witness for C7: an unparsable body and a null body on a well-formed
topic. -/
theorem claim_C7_witness :
    processMessage ⟨[], []⟩ "/application/out/dev" none 5 = ⟨[], []⟩
    ∧ processMessage ⟨[], []⟩ "/application/out/dev" (some .vnull) 5 = ⟨[], []⟩ :=
  ⟨(claim_C7 ⟨[], []⟩ "/application/out/dev" 5).1,
   (claim_C7 ⟨[], []⟩ "/application/out/dev" 5).2 .vnull (by decide)⟩

/-- C9: for every accepted message, the stored reading's uid equals the
payload's uid when that field is present and truthy, and otherwise the
topic-derived device identifier; the deviceId field always equals the
topic-derived device identifier. -/
theorem claim_C9 (st : SysState) (topic a d : String) (p : JSVal) (now : Nat)
    (hs : jsSplitSlash topic = [a, "application", "out", d])
    (hv : validatePayload p = true) :
    ∃ r : TelemetryRec,
      (processMessage st topic (some p) now).telemetry = st.telemetry ++ [r]
      ∧ r.deviceId = d
      ∧ r.uid = (if truthy (getField p "uid") then getField p "uid" else .vstr d) := by
  refine ⟨mkTelemetry d p now, ?_, rfl, rfl⟩
  rw [processMessage_accepted st topic a d p now hs hv]

/-- Valid payload carrying an explicit uid field, used as witness input. -/
def sampleUidPayload : JSVal :=
  .vobj [("uid", .vstr "u42"),
    ("data", .vobj [("temp", .vnum (.num 1)), ("hum", .vnum (.num 2)),
      ("pm2.5", .vnum (.num 3))])]

/-- Witness for C9 on a payload that does carry a truthy uid. -/
theorem claim_C9_witness :
    (jsSplitSlash "/application/out/dev1" = ["", "application", "out", "dev1"]
      ∧ validatePayload sampleUidPayload = true)
    ∧ ∃ r : TelemetryRec,
      (processMessage ⟨[], []⟩ "/application/out/dev1" (some sampleUidPayload) 3).telemetry
          = [] ++ [r]
      ∧ r.deviceId = "dev1"
      ∧ r.uid = (if truthy (getField sampleUidPayload "uid") then getField sampleUidPayload "uid"
          else .vstr "dev1") :=
  ⟨⟨by decide, by decide⟩,
   claim_C9 ⟨[], []⟩ "/application/out/dev1" "" "dev1" sampleUidPayload 3 (by decide) (by decide)⟩

/-- Valid payload whose three data fields are a null, a boolean and a
non-numeric string, used as witness input for the lenient validator. -/
def lenientPayload : JSVal :=
  .vobj [("data", .vobj [("temp", .vnull), ("hum", .vbool true), ("pm2.5", .vstr "hello")])]

/-- C10: the payload validator accepts any parsed body that is an object
whose data member is an object in which temp, hum and pm2.5 are merely not
undefined (it rejects exactly when the payload or its data is not an object
or a field is undefined); values such as null, booleans, objects, or
non-numeric, non-hex-looking strings decode to 0 through the final
fallback, and such payloads are stored as readings with all-zero data. -/
theorem claim_C10 :
    (∀ p : JSVal, validatePayload p = true ↔
      isObjectJS p = true ∧ isObjectJS (getField p "data") = true ∧
      isUndefined (getField (getField p "data") "temp") = false ∧
      isUndefined (getField (getField p "data") "hum") = false ∧
      isUndefined (getField (getField p "data") "pm2.5") = false)
    ∧ littleEndianToFloat .vnull = .ok (.num 0)
    ∧ (∀ b, littleEndianToFloat (.vbool b) = .ok (.num 0))
    ∧ (∀ fs, littleEndianToFloat (.vobj fs) = .ok (.num 0))
    ∧ (∀ s : String, strStartsWith0x s = false → hexTest s = false →
        jsParseFloat s = .nan → littleEndianToFloat (.vstr s) = .ok (.num 0))
    ∧ (∀ st : SysState, ∀ now : Nat,
        (processMessage st "/application/out/dev" (some lenientPayload) now).telemetry
          = st.telemetry ++
            [⟨"dev", .vstr "dev", .vstr "unknown", .vnum (.num 0),
              ⟨.num 0, .num 0, .num 0⟩, now, now⟩]) := by
  refine ⟨validatePayload_iff, rfl, fun b => rfl, fun fs => rfl, ?_, ?_⟩
  · intro s h1 h2 h3
    simp [littleEndianToFloat, h1, h2, h3]
  · intro st now
    rw [processMessage_accepted st "/application/out/dev" "" "dev" lenientPayload now
      (by decide) (by decide)]
    with_unfolding_all rfl

/-- Witness for C10 on the string shape of the zero fallback. -/
theorem claim_C10_witness :
    (strStartsWith0x "hello" = false ∧ hexTest "hello" = false
      ∧ jsParseFloat "hello" = .nan)
    ∧ littleEndianToFloat (.vstr "hello") = .ok (.num 0) :=
  ⟨⟨by decide, by decide, by decide⟩,
   claim_C10.2.2.2.2.1 "hello" (by decide) (by decide) (by decide)⟩

/-- Guard of one event under the client-environment assumptions. -/
def evGuard (s : WState) : MEvent → Bool
  | .connect => !s.ended
  | .reconnect => !s.ended && !s.isConnected
  | _ => true

lemma validFrom_cons (s : WState) (e : MEvent) (rest : List MEvent) :
    validFrom s (e :: rest) = (evGuard s e && validFrom (stepW s e) rest) := by
  cases e <;> rfl

lemma runW_cons (s : WState) (e : MEvent) (rest : List MEvent) :
    runW s (e :: rest) = runW (stepW s e) rest := rfl

lemma validFrom_append (s : WState) (l1 l2 : List MEvent) :
    validFrom s (l1 ++ l2) = (validFrom s l1 && validFrom (runW s l1) l2) := by
  induction l1 generalizing s with
  | nil => simp [validFrom, runW]
  | cons e rest ih =>
    rw [List.cons_append, validFrom_cons, validFrom_cons, ih (stepW s e), ← Bool.and_assoc,
      runW_cons]

/-- Invariant of the worker state under valid event traces: once the session
has been ended the worker reports disconnected, and a counter at or past
the ceiling implies the session has been ended. -/
def Winv (s : WState) : Prop :=
  (s.ended = true → s.isConnected = false)
  ∧ (maxReconnectAttempts ≤ s.reconnectAttempts → s.ended = true)

lemma winv_step (s : WState) (e : MEvent) (hg : evGuard s e = true) (h : Winv s) :
    Winv (stepW s e) := by
  obtain ⟨h1, h2⟩ := h
  cases e with
  | connect =>
    simp only [evGuard, Bool.not_eq_true'] at hg
    exact ⟨fun he => absurd he (by simp [stepW, hg]), fun hn => by
      simp [stepW, maxReconnectAttempts] at hn⟩
  | reconnect =>
    simp only [evGuard, Bool.and_eq_true, Bool.not_eq_true'] at hg
    obtain ⟨hge, hgc⟩ := hg
    simp only [stepW]
    by_cases hn : s.reconnectAttempts + 1 ≥ maxReconnectAttempts
    · rw [if_pos hn]
      exact ⟨fun _ => hgc, fun _ => rfl⟩
    · rw [if_neg hn]
      refine ⟨fun he => absurd he (by simp [hge]), fun hc => ?_⟩
      exfalso
      have hc2 : maxReconnectAttempts ≤ s.reconnectAttempts + 1 := hc
      exact hn hc2
  | error => exact ⟨fun _ => rfl, h2⟩
  | close => exact ⟨fun _ => rfl, h2⟩
  | offline => exact ⟨fun _ => rfl, h2⟩
  | stop => exact ⟨fun _ => rfl, fun _ => rfl⟩

lemma winv_run (evs : List MEvent) (s : WState) (hv : validFrom s evs = true) (h : Winv s) :
    Winv (runW s evs) := by
  induction evs generalizing s with
  | nil => exact h
  | cons e rest ih =>
    rw [validFrom_cons, Bool.and_eq_true] at hv
    rw [runW_cons]
    exact ih (stepW s e) hv.2 (winv_step s e hv.1 h)

lemma stepW_ended (s : WState) (e : MEvent) (h : s.ended = true) :
    (stepW s e).ended = true := by
  cases e with
  | reconnect =>
    simp only [stepW]
    split
    · rfl
    · exact h
  | connect => exact h
  | error => exact h
  | close => exact h
  | offline => exact h
  | stop => rfl

lemma no_reconnect_after_end (more : List MEvent) (s : WState) (hs : s.ended = true)
    (hv : validFrom s more = true) : MEvent.reconnect ∉ more := by
  induction more generalizing s with
  | nil => simp
  | cons e rest ih =>
    rw [validFrom_cons, Bool.and_eq_true] at hv
    intro hmem
    rcases List.mem_cons.mp hmem with he | hmem2
    · rw [← he] at hv
      simp [evGuard, hs] at hv
    · exact ih (stepW s e) (stepW_ended s e hs) hv.2 hmem2

/-- C4: along every event trace the mqtt.js client can deliver, once the
reconnect-attempt counter reaches the ceiling (10) the worker has called
`client.end()`, the status query reports connected = false, and no further
reconnect events occur for the rest of the trace; a successful (re)connect
resets the counter to zero. The environment assumptions (a reconnect only
fires while disconnected, and an ended client emits no connect or
reconnect) are encoded in `validFrom`. -/
theorem claim_C4 :
    (∀ evs : List MEvent, validFrom initW evs = true →
      maxReconnectAttempts ≤ (runW initW evs).reconnectAttempts →
        (runW initW evs).ended = true ∧ (getStatus (runW initW evs)).connected = false)
    ∧ (∀ evs more : List MEvent, validFrom initW (evs ++ more) = true →
        (runW initW evs).ended = true → MEvent.reconnect ∉ more)
    ∧ (∀ s : WState, (stepW s MEvent.connect).reconnectAttempts = 0) := by
  refine ⟨?_, ?_, fun s => rfl⟩
  · intro evs hv hn
    have hinv : Winv (runW initW evs) := winv_run evs initW hv (by constructor <;> intro h <;>
      simp [initW, maxReconnectAttempts] at h)
    have hend : (runW initW evs).ended = true := hinv.2 hn
    exact ⟨hend, hinv.1 hend⟩
  · intro evs more hv hend
    rw [validFrom_append, Bool.and_eq_true] at hv
    exact no_reconnect_after_end more (runW initW evs) hend hv.2

/-- Witness for C4: the trace close followed by ten reconnect attempts. -/
theorem claim_C4_witness :
    (validFrom initW (MEvent.close :: List.replicate 10 MEvent.reconnect) = true
      ∧ maxReconnectAttempts
          ≤ (runW initW (MEvent.close :: List.replicate 10 MEvent.reconnect)).reconnectAttempts)
    ∧ ((runW initW (MEvent.close :: List.replicate 10 MEvent.reconnect)).ended = true
      ∧ (getStatus (runW initW (MEvent.close :: List.replicate 10 MEvent.reconnect))).connected
          = false) :=
  ⟨⟨by decide, by decide⟩, claim_C4.1 _ (by decide) (by decide)⟩

lemma takeWhile_hex_all (t : List Char) (h : ∀ c ∈ t, isHexDigitC c = true) :
    t.takeWhile isHexDigitC = t := by
  induction t with
  | nil => rfl
  | cons c rest ih =>
    rw [List.takeWhile_cons, h c (List.mem_cons_self c rest)]
    simp only [if_true]
    rw [ih fun d hd => h d (List.mem_cons_of_mem c hd)]

lemma strStarts_of_hex (t : List Char) (hhex : ∀ c ∈ t, isHexDigitC c = true) :
    strStartsWith0x ⟨t⟩ = false := by
  unfold strStartsWith0x
  split
  · rename_i rest heq
    have hx := hhex 'x' (by rw [show (⟨t⟩ : String).data = t from rfl] at heq; rw [heq]; simp)
    exact absurd hx (by decide)
  · rfl

lemma parseIntHex_hex (t : List Char) (ht : t ≠ []) (hhex : ∀ c ∈ t, isHexDigitC c = true) :
    parseIntHex ⟨'0' :: 'x' :: t⟩ = some (hexVal t) := by
  have htw : t.takeWhile isHexDigitC = t := takeWhile_hex_all t hhex
  have hne : t.isEmpty = false := by
    cases t with
    | nil => exact absurd rfl ht
    | cons a b => rfl
  show (if (t.takeWhile isHexDigitC).isEmpty = true then none
      else some (hexVal (t.takeWhile isHexDigitC))) = some (hexVal t)
  rw [htw, hne]
  simp

lemma hexTest_of_hex (t : List Char) (ht : t ≠ []) (hhex : ∀ c ∈ t, isHexDigitC c = true) :
    hexTest ⟨t⟩ = true := by
  have hne : t.isEmpty = false := by
    cases t with
    | nil => exact absurd rfl ht
    | cons a b => rfl
  simp only [hexTest, hne, Bool.not_false, Bool.true_and, List.all_eq_true]
  exact hhex

/-- The 0x-prefixed hex-string branch of the decoder. -/
lemma lEF_hex0x (t : List Char) (ht : t ≠ []) (hhex : ∀ c ∈ t, isHexDigitC c = true)
    (hval : hexVal t < 4294967296) :
    littleEndianToFloat (.vstr ⟨'0' :: 'x' :: t⟩) = .ok (float32OfBits (hexVal t)) := by
  have hsw : strStartsWith0x ⟨'0' :: 'x' :: t⟩ = true := rfl
  have hp : parseIntHex ⟨'0' :: 'x' :: t⟩ = some (hexVal t) := parseIntHex_hex t ht hhex
  simp only [littleEndianToFloat, hsw, Bool.true_or, eq_self_iff_true, if_true, hp]
  show (if hexVal t ≤ 4294967295 then Except.ok (float32OfBits (hexVal t))
      else Except.error ()) = Except.ok (float32OfBits (hexVal t))
  rw [if_pos (by omega)]

/-- The bare hex-string branch of the decoder. -/
lemma lEF_hexbare (t : List Char) (ht : t ≠ []) (hhex : ∀ c ∈ t, isHexDigitC c = true)
    (hval : hexVal t < 4294967296) :
    littleEndianToFloat (.vstr ⟨t⟩) = .ok (float32OfBits (hexVal t)) := by
  have hsw : strStartsWith0x ⟨t⟩ = false := strStarts_of_hex t hhex
  have hx : hexTest ⟨t⟩ = true := hexTest_of_hex t ht hhex
  have hp : parseIntHex ⟨'0' :: 'x' :: t⟩ = some (hexVal t) := parseIntHex_hex t ht hhex
  simp only [littleEndianToFloat, hsw, hx, Bool.false_or, eq_self_iff_true, if_true,
    Bool.false_eq_true, if_false]
  show (match parseIntHex ⟨'0' :: 'x' :: (⟨t⟩ : String).data⟩ with
      | some n => if n ≤ 4294967295 then Except.ok (float32OfBits n) else Except.error ()
      | none => Except.error ()) = Except.ok (float32OfBits (hexVal t))
  rw [show (⟨'0' :: 'x' :: (⟨t⟩ : String).data⟩ : String) = ⟨'0' :: 'x' :: t⟩ from rfl, hp]
  show (if hexVal t ≤ 4294967295 then Except.ok (float32OfBits (hexVal t))
      else Except.error ()) = Except.ok (float32OfBits (hexVal t))
  rw [if_pos (by omega)]

lemma jsToUint8_nat (b : Nat) (hb : b < 256) : jsToUint8 (.vnum (.num b)) = b := by
  show (ratTrunc (b : ℚ) % 256).toNat = b
  unfold ratTrunc
  rw [if_pos (by positivity), Int.floor_natCast]
  rw [Int.emod_eq_of_lt (by positivity) (by exact_mod_cast hb)]
  simp

/-- The 4-byte Buffer branch of the decoder. -/
lemma lEF_buf (b0 b1 b2 b3 : Nat) (h0 : b0 < 256) (h1 : b1 < 256) (h2 : b2 < 256)
    (h3 : b3 < 256) :
    littleEndianToFloat (.vbuf [b0, b1, b2, b3])
      = .ok (float32OfBits (b0 + 256 * (b1 + 256 * (b2 + 256 * b3)))) := by
  show Except.ok (float32OfBits (bytesLE [b0, b1, b2, b3])) = _
  rw [show bytesLE [b0, b1, b2, b3]
      = b0 % 256 + 256 * (b1 % 256 + 256 * (b2 % 256 + 256 * (b3 % 256))) from rfl,
    Nat.mod_eq_of_lt h0, Nat.mod_eq_of_lt h1, Nat.mod_eq_of_lt h2, Nat.mod_eq_of_lt h3]

/-- The 4-element byte-array branch of the decoder. -/
lemma lEF_arr (b0 b1 b2 b3 : Nat) (h0 : b0 < 256) (h1 : b1 < 256) (h2 : b2 < 256)
    (h3 : b3 < 256) :
    littleEndianToFloat (.varr [.vnum (.num b0), .vnum (.num b1), .vnum (.num b2),
        .vnum (.num b3)])
      = .ok (float32OfBits (b0 + 256 * (b1 + 256 * (b2 + 256 * b3)))) := by
  show Except.ok (float32OfBits (bytesLE ([JSVal.vnum (.num b0), .vnum (.num b1),
      .vnum (.num b2), .vnum (.num b3)].map jsToUint8))) = _
  rw [show ([JSVal.vnum (.num b0), .vnum (.num b1), .vnum (.num b2),
      .vnum (.num b3)].map jsToUint8)
      = [jsToUint8 (.vnum (.num b0)), jsToUint8 (.vnum (.num b1)),
        jsToUint8 (.vnum (.num b2)), jsToUint8 (.vnum (.num b3))] from rfl,
    jsToUint8_nat b0 h0, jsToUint8_nat b1 h1, jsToUint8_nat b2 h2, jsToUint8_nat b3 h3]
  exact lEF_buf b0 b1 b2 b3 h0 h1 h2 h3 ▸ rfl

/-- C1: every valid hexadecimal string (with or without the 0x marker) whose
value fits in 32 bits decodes to the IEEE-754 binary32 reinterpretation of
that 32-bit pattern, and the 4-byte Buffer shape, the 4-element byte-array
shape and the plain-number shape of the same pattern all decode to the same
float. The byte hypotheses express the little-endian composition of the
pattern. -/
theorem claim_C1 (t : List Char) (b0 b1 b2 b3 : Nat)
    (ht : t ≠ []) (hhex : ∀ c ∈ t, isHexDigitC c = true)
    (hval : hexVal t < 4294967296)
    (h0 : b0 < 256) (h1 : b1 < 256) (h2 : b2 < 256) (h3 : b3 < 256)
    (hbytes : b0 + 256 * (b1 + 256 * (b2 + 256 * b3)) = hexVal t) :
    littleEndianToFloat (.vstr ⟨'0' :: 'x' :: t⟩) = .ok (float32OfBits (hexVal t))
    ∧ littleEndianToFloat (.vstr ⟨t⟩) = .ok (float32OfBits (hexVal t))
    ∧ littleEndianToFloat (.vbuf [b0, b1, b2, b3]) = .ok (float32OfBits (hexVal t))
    ∧ littleEndianToFloat (.varr [.vnum (.num b0), .vnum (.num b1), .vnum (.num b2),
        .vnum (.num b3)]) = .ok (float32OfBits (hexVal t))
    ∧ littleEndianToFloat (.vnum (float32OfBits (hexVal t)))
        = .ok (float32OfBits (hexVal t)) :=
  ⟨lEF_hex0x t ht hhex hval, lEF_hexbare t ht hhex hval,
   hbytes ▸ lEF_buf b0 b1 b2 b3 h0 h1 h2 h3,
   hbytes ▸ lEF_arr b0 b1 b2 b3 h0 h1 h2 h3, rfl⟩

set_option maxRecDepth 8192 in
/-- Witness for C1: the spec's example, hex pattern 41200000, whose four
little-endian bytes are 00 00 20 41 and which decodes to 10.0. -/
theorem claim_C1_witness :
    littleEndianToFloat (.vstr "0x41200000") = .ok (float32OfBits (hexVal "41200000".data))
    ∧ littleEndianToFloat (.vstr "41200000") = .ok (float32OfBits (hexVal "41200000".data))
    ∧ littleEndianToFloat (.vbuf [0, 0, 32, 65]) = .ok (float32OfBits (hexVal "41200000".data))
    ∧ littleEndianToFloat (.varr [.vnum (.num 0), .vnum (.num 0), .vnum (.num 32),
        .vnum (.num 65)]) = .ok (float32OfBits (hexVal "41200000".data))
    ∧ float32OfBits (hexVal "41200000".data) = .num 10 := by
  have h := claim_C1 "41200000".data 0 0 32 65 (by decide) (by decide) (by decide)
    (by decide) (by decide) (by decide) (by decide) (by decide)
  exact ⟨h.1, h.2.1, h.2.2.1, h.2.2.2.1, by with_unfolding_all decide⟩

lemma round2Q_idem (q : ℚ) : round2Q (round2Q q) = round2Q q := by
  unfold round2Q
  have h1 : ((⌊q * 100 + 1 / 2⌋ : ℚ) / 100) * 100 = (⌊q * 100 + 1 / 2⌋ : ℚ) :=
    div_mul_cancel₀ _ (by norm_num)
  rw [h1, Int.floor_int_add]
  have h2 : ⌊(1 / 2 : ℚ)⌋ = 0 := by
    rw [Int.floor_eq_zero_iff, Set.mem_Ico]
    norm_num
  rw [h2, add_zero]

lemma round2N_idem (n : JSNum) : round2N (round2N n) = round2N n := by
  cases n with
  | num q => exact congrArg JSNum.num (round2Q_idem q)
  | nan => rfl
  | posInf => rfl
  | negInf => rfl

/-- Reduction of the field decoder when all three per-field decodes succeed
(the body of the try block). -/
lemma decode_ok (vt vh vp : JSVal) (qt qh qp : JSNum)
    (h1 : littleEndianToFloat vt = .ok qt) (h2 : littleEndianToFloat vh = .ok qh)
    (h3 : littleEndianToFloat vp = .ok qp) :
    decodeLittleEndianData vt vh vp = ⟨round2N qt, round2N qh, round2N qp⟩ := by
  unfold decodeLittleEndianData
  rw [h1, h2, h3]

/-- Reduction of the field decoder when some per-field decode throws (the
catch branch). -/
lemma decode_err (vt vh vp : JSVal)
    (h : littleEndianToFloat vt = .error () ∨ littleEndianToFloat vh = .error ()
      ∨ littleEndianToFloat vp = .error ()) :
    decodeLittleEndianData vt vh vp
      = ⟨parseFloatOr0 vt, parseFloatOr0 vh, parseFloatOr0 vp⟩ := by
  rcases h1 : littleEndianToFloat vt with u1 | n1 <;>
    rcases h2 : littleEndianToFloat vh with u2 | n2 <;>
      rcases h3 : littleEndianToFloat vp with u3 | n3 <;>
        (unfold decodeLittleEndianData; rw [h1, h2, h3])
  simp [h1, h2, h3] at h

set_option maxRecDepth 2048 in
/-- Counterexample for C2 as frozen: a message whose humidity field is the
string 0xG makes `writeUInt32LE` throw (parseInt gives NaN), so the whole
triple is decoded by the catch branch, and the temperature field is then
stored as the bare `parseFloat("3.14159")` = 3.14159 with no 2-decimal
rounding; it differs from its own rounding (3.14) and from the rounding of
its decoded value. -/
theorem claim_C2_counterexample :
    decodeLittleEndianData (.vstr "3.14159") (.vstr "0xG") (.vnum (.num 0))
      = ⟨.num (314159 / 100000), .num 0, .num 0⟩
    ∧ round2N (.num (314159 / 100000)) ≠ .num (314159 / 100000)
    ∧ (decodeLittleEndianData (.vstr "3.14159") (.vstr "0xG") (.vnum (.num 0))).temperature
        ≠ round2N (parseFloatOr0 (.vstr "3.14159")) := by
  have hg : littleEndianToFloat (.vstr "0xG") = .error () := rfl
  have hd := decode_err (.vstr "3.14159") (.vstr "0xG") (.vnum (.num 0))
    (Or.inr (Or.inl hg))
  have e1 : parseFloatOr0 (.vstr "3.14159") = .num (314159 / 100000) := by
    with_unfolding_all rfl
  have e2 : parseFloatOr0 (.vstr "0xG") = .num 0 := by with_unfolding_all rfl
  have e3 : parseFloatOr0 (.vnum (.num 0)) = .num 0 := by with_unfolding_all rfl
  have e4 : round2N (.num (314159 / 100000)) ≠ .num (314159 / 100000) := by
    with_unfolding_all decide
  refine ⟨?_, e4, ?_⟩
  · rw [hd, e1, e2, e3]
  · rw [hd, e1]
    exact Ne.symm e4

/-- C2 as amended: on the non-exception decode path each stored field equals
its decoded value rounded to two decimals, two-decimal rounding is
idempotent, and the read path re-rounds so an already-rounded stored record
is returned unchanged; on the exception-fallback path, however, the fields
are stored as the best-effort decimal parse of the raw values without any
rounding. -/
theorem claim_C2_amended :
    (∀ vt vh vp : JSVal, ∀ qt qh qp : JSNum,
      littleEndianToFloat vt = .ok qt → littleEndianToFloat vh = .ok qh →
      littleEndianToFloat vp = .ok qp →
      decodeLittleEndianData vt vh vp = ⟨round2N qt, round2N qh, round2N qp⟩)
    ∧ (∀ vt vh vp : JSVal,
        (littleEndianToFloat vt = .error () ∨ littleEndianToFloat vh = .error ()
          ∨ littleEndianToFloat vp = .error ()) →
        decodeLittleEndianData vt vh vp
          = ⟨parseFloatOr0 vt, parseFloatOr0 vh, parseFloatOr0 vp⟩)
    ∧ (∀ n : JSNum, round2N (round2N n) = round2N n)
    ∧ (∀ r : TelemetryRec, (toAPIResponse r).data
        = ⟨round2N r.data.temperature, round2N r.data.humidity, round2N r.data.pm25⟩)
    ∧ (∀ r : TelemetryRec, ∀ a b c : JSNum,
        r.data = ⟨round2N a, round2N b, round2N c⟩ → (toAPIResponse r).data = r.data) := by
  refine ⟨decode_ok, decode_err, round2N_idem, fun r => rfl, ?_⟩
  intro r a b c h
  show (⟨round2N r.data.temperature, round2N r.data.humidity, round2N r.data.pm25⟩
    : DecodedData) = r.data
  rw [h]
  show (⟨round2N (round2N a), round2N (round2N b), round2N (round2N c)⟩ : DecodedData)
    = ⟨round2N a, round2N b, round2N c⟩
  rw [round2N_idem, round2N_idem, round2N_idem]

/-- Witness for C2 as amended: a plain decimal string decodes through the
non-exception path and is stored rounded. -/
theorem claim_C2_witness :
    littleEndianToFloat (.vstr "10.555") = .ok (.num (10555 / 1000))
    ∧ decodeLittleEndianData (.vstr "10.555") (.vnum (.num 2)) (.vnum (.num 3))
      = ⟨round2N (.num (10555 / 1000)), round2N (.num 2), round2N (.num 3)⟩ :=
  ⟨by with_unfolding_all rfl,
   claim_C2_amended.1 _ _ _ _ _ _ (by with_unfolding_all rfl)
     (by with_unfolding_all rfl) (by with_unfolding_all rfl)⟩

/-- C8: the composite numeric decoder (per-field probing in
`littleEndianToFloat` with the protecting catch in
`decodeLittleEndianData`) is total and never raises: every input triple
produces a plain record, either the rounded per-field values or, when a
per-field decode throws, the best-effort `parseFloat(x) || 0` of each raw
value; unrecognised shapes (booleans, null, undefined, plain objects,
buffers and arrays of length other than 4, and strings that are neither
hex-shaped nor decimal-parseable) decode to 0. -/
theorem claim_C8 :
    (∀ vt vh vp : JSVal,
      (∃ qt qh qp : JSNum, littleEndianToFloat vt = .ok qt
        ∧ littleEndianToFloat vh = .ok qh ∧ littleEndianToFloat vp = .ok qp
        ∧ decodeLittleEndianData vt vh vp = ⟨round2N qt, round2N qh, round2N qp⟩)
      ∨ decodeLittleEndianData vt vh vp
          = ⟨parseFloatOr0 vt, parseFloatOr0 vh, parseFloatOr0 vp⟩)
    ∧ (∀ vt vh vp : JSVal,
        (littleEndianToFloat vt = .error () ∨ littleEndianToFloat vh = .error ()
          ∨ littleEndianToFloat vp = .error ()) →
        decodeLittleEndianData vt vh vp
          = ⟨parseFloatOr0 vt, parseFloatOr0 vh, parseFloatOr0 vp⟩)
    ∧ littleEndianToFloat .vnull = .ok (.num 0)
    ∧ littleEndianToFloat .vundefined = .ok (.num 0)
    ∧ (∀ b, littleEndianToFloat (.vbool b) = .ok (.num 0))
    ∧ (∀ fs, littleEndianToFloat (.vobj fs) = .ok (.num 0))
    ∧ (∀ bs : List Nat, bs.length ≠ 4 → littleEndianToFloat (.vbuf bs) = .ok (.num 0))
    ∧ (∀ xs : List JSVal, xs.length ≠ 4 → littleEndianToFloat (.varr xs) = .ok (.num 0))
    ∧ (∀ s : String, strStartsWith0x s = false → hexTest s = false →
        jsParseFloat s = .nan → littleEndianToFloat (.vstr s) = .ok (.num 0)) := by
  refine ⟨?_, decode_err, rfl, rfl, fun b => rfl, fun fs => rfl, ?_, ?_, ?_⟩
  · intro vt vh vp
    rcases h1 : littleEndianToFloat vt with u1 | n1
    · exact Or.inr (decode_err vt vh vp (Or.inl (by rw [h1])))
    rcases h2 : littleEndianToFloat vh with u2 | n2
    · exact Or.inr (decode_err vt vh vp (Or.inr (Or.inl (by rw [h2]))))
    rcases h3 : littleEndianToFloat vp with u3 | n3
    · exact Or.inr (decode_err vt vh vp (Or.inr (Or.inr (by rw [h3]))))
    exact Or.inl ⟨n1, n2, n3, rfl, rfl, rfl, decode_ok vt vh vp n1 n2 n3 h1 h2 h3⟩
  · intro bs hlen
    simp only [littleEndianToFloat]
    rw [if_neg hlen]
  · intro xs hlen
    simp only [littleEndianToFloat]
    rw [if_neg hlen]
  · intro s h1 h2 h3
    simp [littleEndianToFloat, h1, h2, h3]

/-- Witness for C8: the catch branch on a throwing hex-marked string. -/
theorem claim_C8_witness :
    (littleEndianToFloat (.vstr "0xZZ") = .error ()
      ∨ littleEndianToFloat (.vnum (.num 1)) = .error ()
      ∨ littleEndianToFloat .vnull = .error ())
    ∧ decodeLittleEndianData (.vstr "0xZZ") (.vnum (.num 1)) .vnull
      = ⟨parseFloatOr0 (.vstr "0xZZ"), parseFloatOr0 (.vnum (.num 1)),
        parseFloatOr0 .vnull⟩ :=
  ⟨Or.inl rfl, claim_C8.2.1 _ _ _ (Or.inl rfl)⟩

/-- The uid column of the device collection. -/
def uidsOf (ds : List DeviceRec) : List String := ds.map (fun d => d.uid)

lemma upsert_new (ds : List DeviceRec) (deviceId : String) (p : JSVal) (now : Nat)
    (h : deviceId ∉ uidsOf ds) :
    upsertDevice ds deviceId p now = ds ++ [newDevice deviceId p now] := by
  induction ds with
  | nil => rfl
  | cons d rest ih =>
    simp only [uidsOf, List.map_cons, List.mem_cons, not_or] at h
    obtain ⟨h1, h2⟩ := h
    show (if d.uid = deviceId then updateExisting d p now :: rest
        else d :: upsertDevice rest deviceId p now) = (d :: rest) ++ [newDevice deviceId p now]
    rw [if_neg (fun he => h1 he.symm), ih h2]
    rfl

lemma upsert_uids (ds : List DeviceRec) (deviceId : String) (p : JSVal) (now : Nat) :
    uidsOf (upsertDevice ds deviceId p now)
      = if deviceId ∈ uidsOf ds then uidsOf ds else uidsOf ds ++ [deviceId] := by
  induction ds with
  | nil => simp [upsertDevice, uidsOf, newDevice]
  | cons d rest ih =>
    show uidsOf (if d.uid = deviceId then updateExisting d p now :: rest
        else d :: upsertDevice rest deviceId p now) = _
    by_cases hd : d.uid = deviceId
    · rw [if_pos hd]
      have hmem : deviceId ∈ uidsOf (d :: rest) := by
        simp [uidsOf, hd]
      rw [if_pos hmem]
      simp [uidsOf, updateExisting, hd]
    · rw [if_neg hd]
      have heq : uidsOf (d :: upsertDevice rest deviceId p now)
          = d.uid :: uidsOf (upsertDevice rest deviceId p now) := rfl
      rw [heq, ih]
      by_cases hm : deviceId ∈ uidsOf rest
      · rw [if_pos hm,
          if_pos (show deviceId ∈ uidsOf (d :: rest) from List.mem_cons_of_mem d.uid hm)]
        rfl
      · have hneg : deviceId ∉ uidsOf (d :: rest) := by
          intro hmem
          rcases List.mem_cons.mp hmem with h | h
          · exact hd h.symm
          · exact hm h
        rw [if_neg hm, if_neg hneg]
        rfl

lemma upsert_nodup (ds : List DeviceRec) (deviceId : String) (p : JSVal) (now : Nat)
    (h : (uidsOf ds).Nodup) : (uidsOf (upsertDevice ds deviceId p now)).Nodup := by
  rw [upsert_uids]
  split
  · exact h
  · rename_i hm
    simp [List.nodup_append, h, hm]

/-- Under the uniqueness invariant, every record carrying the upserted uid
is active and stamped with the current instant after the upsert. -/
lemma upsert_props (ds : List DeviceRec) (deviceId : String) (p : JSVal) (now : Nat)
    (hnd : (uidsOf ds).Nodup) :
    ∀ e ∈ upsertDevice ds deviceId p now, e.uid = deviceId →
      e.isActive = true ∧ e.lastSeen = now := by
  induction ds with
  | nil =>
    intro e he hu
    rcases List.mem_singleton.mp he with rfl
    exact ⟨rfl, rfl⟩
  | cons d rest ih =>
    simp only [uidsOf, List.map_cons, List.nodup_cons] at hnd
    obtain ⟨hd1, hd2⟩ := hnd
    intro e he hu
    by_cases hd : d.uid = deviceId
    · rw [show upsertDevice (d :: rest) deviceId p now
          = updateExisting d p now :: rest from by
        show (if d.uid = deviceId then _ else _) = _
        rw [if_pos hd]] at he
      rcases List.mem_cons.mp he with h1 | h1
      · subst h1
        exact ⟨rfl, rfl⟩
      · exfalso
        exact hd1 (by rw [hd, ← hu]; exact List.mem_map_of_mem (fun x => x.uid) h1)
    · rw [show upsertDevice (d :: rest) deviceId p now
          = d :: upsertDevice rest deviceId p now from by
        show (if d.uid = deviceId then _ else _) = _
        rw [if_neg hd]] at he
      rcases List.mem_cons.mp he with h1 | h1
      · subst h1
        exact absurd hu hd
      · exact ih hd2 e h1 hu

lemma list_four {α : Type} (l : List α) (h : l.length = 4) :
    ∃ x0 x1 x2 x3, l = [x0, x1, x2, x3] := by
  rcases l with _ | ⟨a, _ | ⟨b, _ | ⟨c, _ | ⟨d, _ | ⟨e, rest⟩⟩⟩⟩⟩ <;> simp at h
  exact ⟨a, b, c, d, rfl⟩

lemma processMessage_nodup (st : SysState) (t : String) (m : Option JSVal) (n : Nat)
    (h : (uidsOf st.devices).Nodup) :
    (uidsOf (processMessage st t m n).devices).Nodup := by
  by_cases hg : (jsSplitSlash t).length = 4 ∧ (jsSplitSlash t)[1]! = "application"
      ∧ (jsSplitSlash t)[2]! = "out"
  · obtain ⟨x0, x1, x2, x3, hl⟩ := list_four (jsSplitSlash t) hg.1
    have hx1 : x1 = "application" := by
      have := hg.2.1
      rw [hl] at this
      exact this
    have hx2 : x2 = "out" := by
      have := hg.2.2
      rw [hl] at this
      exact this
    subst hx1
    subst hx2
    cases m with
    | none => rw [processMessage_noParse]; exact h
    | some p =>
      by_cases hv : validatePayload p = true
      · rw [processMessage_accepted st t x0 x3 p n hl hv]
        exact upsert_nodup st.devices x3 p n h
      · rw [processMessage_invalid st t p n (Bool.not_eq_true _ ▸ hv)]
        exact h
  · rw [processMessage_badTopic st t m n hg]
    exact h

lemma runMessages_nodup (msgs : List (String × Option JSVal × Nat)) (st : SysState)
    (h : (uidsOf st.devices).Nodup) :
    (uidsOf (runMessages st msgs).devices).Nodup := by
  induction msgs generalizing st with
  | nil => exact h
  | cons m rest ih =>
    exact ih (processMessage st m.1 m.2.1 m.2.2)
      (processMessage_nodup st m.1 m.2.1 m.2.2 h)

/-- C5: there is at most one device record per uid. An accepted message for
an unknown uid appends exactly one record, with the synthesized name
"Device uid", isActive true and lastSeen stamped now; an accepted message
for a known uid leaves the uid column unchanged (no second record), keeps
the record active, and moves its lastSeen to now, which only goes forward
when the clock does; and uid uniqueness is preserved along every message
sequence. -/
theorem claim_C5 (st : SysState) (topic a d : String) (p : JSVal) (now : Nat)
    (hs : jsSplitSlash topic = [a, "application", "out", d])
    (hv : validatePayload p = true) :
    ((uidsOf st.devices).Nodup →
      (uidsOf (processMessage st topic (some p) now).devices).Nodup)
    ∧ (d ∉ uidsOf st.devices →
        (processMessage st topic (some p) now).devices = st.devices ++ [newDevice d p now]
        ∧ (newDevice d p now).name = "Device " ++ d
        ∧ (newDevice d p now).isActive = true
        ∧ (newDevice d p now).lastSeen = now)
    ∧ (d ∈ uidsOf st.devices →
        uidsOf (processMessage st topic (some p) now).devices = uidsOf st.devices)
    ∧ ((uidsOf st.devices).Nodup →
        ∀ e ∈ (processMessage st topic (some p) now).devices, e.uid = d →
          e.isActive = true ∧ e.lastSeen = now)
    ∧ ((uidsOf st.devices).Nodup →
        ∀ eOld ∈ st.devices, eOld.uid = d → eOld.lastSeen ≤ now →
        ∀ eNew ∈ (processMessage st topic (some p) now).devices, eNew.uid = d →
          eOld.lastSeen ≤ eNew.lastSeen)
    ∧ (∀ msgs : List (String × Option JSVal × Nat), (uidsOf st.devices).Nodup →
        (uidsOf (runMessages st msgs).devices).Nodup) := by
  have hred := processMessage_accepted st topic a d p now hs hv
  refine ⟨fun h => processMessage_nodup st topic (some p) now h, ?_, ?_, ?_, ?_,
    fun msgs h => runMessages_nodup msgs st h⟩
  · intro h
    rw [hred]
    refine ⟨?_, rfl, rfl, rfl⟩
    show upsertDevice st.devices d p now = _
    exact upsert_new st.devices d p now h
  · intro h
    rw [hred]
    show uidsOf (upsertDevice st.devices d p now) = _
    rw [upsert_uids, if_pos h]
  · intro h e he hu
    rw [hred] at he
    exact upsert_props st.devices d p now h e he hu
  · intro h eOld hOld huOld hle eNew hNew huNew
    rw [hred] at hNew
    have hp := upsert_props st.devices d p now h eNew hNew huNew
    rw [hp.2]
    exact hle

/-- Witness for C5: first accepted message for an unknown uid creates the
record. -/
theorem claim_C5_witness :
    (jsSplitSlash "/application/out/dev" = ["", "application", "out", "dev"]
      ∧ validatePayload sampleUidPayload = true
      ∧ "dev" ∉ uidsOf ([] : List DeviceRec))
    ∧ (processMessage ⟨[], []⟩ "/application/out/dev" (some sampleUidPayload) 5).devices
        = [] ++ [newDevice "dev" sampleUidPayload 5] :=
  ⟨⟨by decide, by decide, by decide⟩,
   ((claim_C5 ⟨[], []⟩ "/application/out/dev" "" "dev" sampleUidPayload 5 (by decide)
     (by decide)).2.1 (by decide)).1⟩

end UtopiaTask
